import Mathlib

/-! # Simple directory lister (`examples/dir.c`)

A shallow embedding of the C program `examples/dir.c` and the properties of
its runs.

```c
int main (void) {
    DIR *dp;
    struct dirent *ep;

    dp = opendir(".");
    if (dp != NULL) {
        while (ep = readdir (dp)) {
            puts(ep->d_name);
        }
        closedir(dp);
    } else {
        perror("Couldn't open the directory");
    }

    return 0;
}
```

The program is a sequence of calls into the C library.  The library and the
file system are the environment: `Env` fixes how the environment answers
(`opendir` succeeds or fails, what the k-th `readdir` returns, the text of
`strerror`), and `State` carries what the calls change (`errno`, the position
of the directory stream, the bytes written to the two standard streams) plus
the chronological trace of the calls made.  The `while` loop is the
fuel-bounded function `whileLoop`; one unit of fuel pays for one evaluation of
the loop condition, and `none` means the fuel ran out before the loop ended.

What the model takes from the C library rather than from the program:
* `opendir` returns a non-null handle or NULL with `errno` set;
* `readdir` returns the next entry, or NULL at the end of the stream (`errno`
  untouched) or on an error (`errno` set); the two NULLs are the same to the
  program, which only tests the pointer;
* `puts` writes its argument and a newline, `perror` writes its argument,
  `": "`, the text of `errno` and a newline; writes to the standard streams
  are taken to succeed;
* `d_name` is the text before the terminating NUL of the C string.

A run is a completed execution: `main env fuel State.init = some (status, st)`.
-/

namespace Dir

/-! ## Data model -/

/-- Directory entry, the `struct dirent` of `dirent.h`.  The program reads only
the member `d_name`; `d_ino` stands for the members it never looks at. -/
structure dirent where
  d_ino : Nat
  d_name : String
deriving DecidableEq, Repr

/-- Directory stream handle: the non-null `DIR *` a successful `opendir`
returns, identified by its address. -/
abbrev DIR := Nat

/-- What one call of `readdir` can do: hand out the next entry, report the end
of the stream (NULL, `errno` untouched) or fail (NULL, `errno` set). -/
inductive ReaddirOutcome where
  | entry (ep : dirent)
  | endOfStream
  | error (errno : Nat)
deriving DecidableEq, Repr

/-- The pointer `readdir` returns to the caller: NULL (`none`) both at the end
of the stream and on an error. -/
def ReaddirOutcome.ptr : ReaddirOutcome → Option dirent
  | .entry ep => some ep
  | .endOfStream => none
  | .error _ => none

/-- What the call of `opendir` can do: return a handle, or fail (NULL) with an
`errno` value. -/
inductive OpendirOutcome where
  | ok (dp : DIR)
  | fail (errno : Nat)
deriving DecidableEq, Repr

/-- The environment of one run: the answers of the file system and of the C
library.  `readdirOutcome dp k` is the outcome of the call number `k` (counted
from 0) of `readdir` on the stream `dp`. -/
structure Env where
  opendirOutcome : String → OpendirOutcome
  readdirOutcome : DIR → Nat → ReaddirOutcome
  strerror : Nat → String

/-- One call into the C library, with its argument and, for the directory
operations, the pointer it returned. -/
inductive Event where
  | opendir (name : String) (result : Option DIR)
  | readdir (dp : DIR) (result : Option dirent)
  | closedir (dp : DIR)
  | puts (s : String)
  | perror (s : String)
deriving DecidableEq, Repr

/-- The mutable state the library calls act on.  `pos` is the number of
`readdir` calls already made on the directory stream (the program opens at most
one); `trace` lists the calls in the order they were made. -/
structure State where
  errno : Nat
  pos : Nat
  stdout : String
  stderr : String
  trace : List Event
deriving DecidableEq, Repr

/-- State at program start: nothing written, no call made. -/
def State.init : State :=
  { errno := 0, pos := 0, stdout := "", stderr := "", trace := [] }

/-! ## The C library calls the program makes -/

/-- `opendir(name)`: returns the handle, or NULL with `errno` set. -/
def opendir (env : Env) (name : String) (st : State) : Option DIR × State :=
  match env.opendirOutcome name with
  | .ok dp => (some dp, { st with trace := st.trace ++ [Event.opendir name (some dp)] })
  | .fail e => (none, { st with errno := e, trace := st.trace ++ [Event.opendir name none] })

/-- `readdir(dp)`: returns the next entry and advances the stream, or NULL at
the end of the stream or on error (then with `errno` set). -/
def readdir (env : Env) (dp : DIR) (st : State) : Option dirent × State :=
  match env.readdirOutcome dp st.pos with
  | .entry ep =>
      (some ep, { st with pos := st.pos + 1, trace := st.trace ++ [Event.readdir dp (some ep)] })
  | .endOfStream =>
      (none, { st with pos := st.pos + 1, trace := st.trace ++ [Event.readdir dp none] })
  | .error e =>
      (none, { st with errno := e, pos := st.pos + 1,
                       trace := st.trace ++ [Event.readdir dp none] })

/-- `closedir(dp)`: releases the handle. -/
def closedir (dp : DIR) (st : State) : State :=
  { st with trace := st.trace ++ [Event.closedir dp] }

/-- `puts(s)`: writes `s` and a newline to standard output. -/
def puts (s : String) (st : State) : State :=
  { st with stdout := st.stdout ++ (s ++ "\n"), trace := st.trace ++ [Event.puts s] }

/-- `perror(s)`: writes `s`, a colon and a blank, the message for the current
`errno` and a newline to standard error. -/
def perror (env : Env) (s : String) (st : State) : State :=
  { st with stderr := st.stderr ++ (s ++ ": " ++ env.strerror st.errno ++ "\n"),
            trace := st.trace ++ [Event.perror s] }

/-! ## The program -/

/-- The loop `while (ep = readdir (dp)) { puts(ep->d_name); }`.  Each unit of
fuel pays for one evaluation of the condition; `none` when the fuel runs out. -/
def whileLoop (env : Env) (dp : DIR) : Nat → State → Option State
  | 0, _ => none
  | fuel + 1, st =>
      match readdir env dp st with
      | (some ep, st1) => whileLoop env dp fuel (puts ep.d_name st1)
      | (none, st1) => some st1

/-- The function `main`: the value it returns (the exit status of the process)
and the final state; `none` when the loop does not end within `fuel`
evaluations of its condition. -/
def main (env : Env) (fuel : Nat) (st : State) : Option (Int × State) :=
  match opendir env "." st with
  | (some dp, st1) =>
      match whileLoop env dp fuel st1 with
      | some st2 => some (0, closedir dp st2)
      | none => none
  | (none, st1) => some (0, perror env "Couldn't open the directory" st1)

/-! ## Observations on a run

The definitions below do not come from the program: they are the vocabulary
in which the properties of its runs are stated. -/

/-- The stream `dp`, read from call number `k` on, hands out exactly the
entries `es`, one per call and in this order, and returns NULL at the call
after the last of them. -/
def Yields (env : Env) (dp : DIR) : Nat → List dirent → Prop
  | k, [] => (env.readdirOutcome dp k).ptr = none
  | k, e :: es => env.readdirOutcome dp k = ReaddirOutcome.entry e ∧ Yields env dp (k + 1) es

/-- The environment lets `main` finish within `fuel` evaluations of the loop
condition: `opendir` fails, or some `readdir` call with a number below `fuel`
returns NULL. -/
def EndsWithin (env : Env) (fuel : Nat) : Prop :=
  match env.opendirOutcome "." with
  | .fail _ => True
  | .ok dp => ∃ n, n < fuel ∧ (env.readdirOutcome dp n).ptr = none

/-- Names of the entries, in order. -/
def names (es : List dirent) : List String :=
  es.map (fun e => e.d_name)

/-- The text that holds each given name followed by a newline, in order, and
nothing else. -/
def listing : List String → String
  | [] => ""
  | n :: ns => n ++ "\n" ++ listing ns

/-- Splits a text at its newlines; `cur` holds the characters read since the
last newline.  A last piece without a newline is kept when it is not empty. -/
def linesAux : List Char → List Char → List String
  | cur, [] => if cur = [] then [] else [String.mk cur]
  | cur, c :: cs => if c = '\n' then String.mk cur :: linesAux [] cs else linesAux (cur ++ [c]) cs

/-- The lines of a text, without their newlines. -/
def linesOf (s : String) : List String :=
  linesAux [] s.data

/-- The calls a loop makes on a stream that hands out `es`: for each entry the
`readdir` that returns it and the `puts` of its name, then the `readdir` that
returns NULL. -/
def loopTrace (dp : DIR) : List dirent → List Event
  | [] => [Event.readdir dp none]
  | e :: es => Event.readdir dp (some e) :: Event.puts e.d_name :: loopTrace dp es

/-- Calls of `opendir`. -/
def Event.isOpendir : Event → Bool
  | .opendir _ _ => true
  | _ => false

/-- Calls of `opendir` that returned a handle. -/
def Event.isOpenOk : Event → Bool
  | .opendir _ (some _) => true
  | _ => false

/-- Calls of `readdir`. -/
def Event.isReaddir : Event → Bool
  | .readdir _ _ => true
  | _ => false

/-- Calls of `closedir`. -/
def Event.isClosedir : Event → Bool
  | .closedir _ => true
  | _ => false

/-- Calls of `puts`. -/
def Event.isPuts : Event → Bool
  | .puts _ => true
  | _ => false

/-- Calls of `perror`. -/
def Event.isPerror : Event → Bool
  | .perror _ => true
  | _ => false

/-- Directory operations: `opendir`, `readdir` and `closedir`. -/
def Event.isDirOp : Event → Bool
  | .opendir _ _ => true
  | .readdir _ _ => true
  | .closedir _ => true
  | _ => false

/-- Number of `opendir` calls in a trace. -/
def opendirCalls (t : List Event) : Nat := t.countP Event.isOpendir

/-- Number of `opendir` calls that returned a handle. -/
def successfulOpens (t : List Event) : Nat := t.countP Event.isOpenOk

/-- Number of `readdir` calls in a trace. -/
def readdirCalls (t : List Event) : Nat := t.countP Event.isReaddir

/-- Number of `closedir` calls in a trace. -/
def closedirCalls (t : List Event) : Nat := t.countP Event.isClosedir

/-- Number of `puts` calls in a trace. -/
def putsCalls (t : List Event) : Nat := t.countP Event.isPuts

/-- Number of `perror` calls in a trace. -/
def perrorCalls (t : List Event) : Nat := t.countP Event.isPerror

/-- The directory operations of a trace, in order. -/
def dirOps (t : List Event) : List Event := t.filter Event.isDirOp

/-- The arguments of the `puts` calls of a trace, in order. -/
def printedNames : List Event → List String
  | [] => []
  | Event.puts s :: t => s :: printedNames t
  | _ :: t => printedNames t

/-- The pointers the `readdir` calls of a trace returned, in order. -/
def readdirResults : List Event → List (Option dirent)
  | [] => []
  | Event.readdir _ r :: t => r :: readdirResults t
  | _ :: t => readdirResults t

/-- The states of the handle life cycle the specification names. -/
inductive Phase where
  | Unopened
  | Open (dp : DIR)
  | Closed
  | FailedOpen
deriving DecidableEq, Repr

/-- One transition of the life cycle `Unopened → Open → (iterating)* → Closed`
or `Unopened → FailedOpen`: `opendir` is allowed only when nothing was opened
yet, `readdir` and `closedir` only on the handle that is open; `Closed` and
`FailedOpen` allow no directory operation at all. -/
def Phase.step : Phase → Event → Option Phase
  | .Unopened, .opendir _ (some dp) => some (.Open dp)
  | .Unopened, .opendir _ none => some .FailedOpen
  | .Open dp, .readdir dp1 _ => if dp1 = dp then some (.Open dp) else none
  | .Open dp, .closedir dp1 => if dp1 = dp then some .Closed else none
  | _, _ => none

/-- Runs the life cycle over a sequence of directory operations; `none` when
some operation is not allowed in the state it meets. -/
def Phase.run : Phase → List Event → Option Phase
  | p, [] => some p
  | p, ev :: t =>
      match p.step ev with
      | some q => q.run t
      | none => none

/-- A directory that holds `a.txt` and `b.txt`: the open succeeds and the
stream ends after the two entries. -/
def envAB : Env :=
  { opendirOutcome := fun _ => OpendirOutcome.ok 7
    readdirOutcome := fun _ k =>
      match k with
      | 0 => ReaddirOutcome.entry ⟨11, "a.txt"⟩
      | 1 => ReaddirOutcome.entry ⟨12, "b.txt"⟩
      | _ => ReaddirOutcome.endOfStream
    strerror := fun _ => "Unknown error" }

/-- The same two names under another handle and other inode numbers, with a
stream that stops on a read error instead of its end. -/
def envAB2 : Env :=
  { opendirOutcome := fun _ => OpendirOutcome.ok 9
    readdirOutcome := fun _ k =>
      match k with
      | 0 => ReaddirOutcome.entry ⟨21, "a.txt"⟩
      | 1 => ReaddirOutcome.entry ⟨22, "b.txt"⟩
      | _ => ReaddirOutcome.error 5
    strerror := fun _ => "Input/output error" }

/-- An empty directory: the first `readdir` already reports the end. -/
def envEmpty : Env :=
  { opendirOutcome := fun _ => OpendirOutcome.ok 7
    readdirOutcome := fun _ _ => ReaddirOutcome.endOfStream
    strerror := fun _ => "Unknown error" }

/-- A current directory that cannot be opened: `opendir` fails with `errno` 2. -/
def envNoDir : Env :=
  { opendirOutcome := fun _ => OpendirOutcome.fail 2
    readdirOutcome := fun _ _ => ReaddirOutcome.endOfStream
    strerror := fun _ => "No such file or directory" }

/-! ## The loop -/

/-- The loop on a stream that hands out `es` and then NULL: with more fuel
than entries it ends, and it has written the listing of `es`, nothing to
standard error, and made the calls of `loopTrace`. -/
theorem whileLoop_of_yields (env : Env) (dp : DIR) :
    ∀ (es : List dirent) (fuel : Nat) (st : State),
      Yields env dp st.pos es → es.length < fuel →
      ∃ st1, whileLoop env dp fuel st = some st1 ∧
        st1.stdout = st.stdout ++ listing (names es) ∧
        st1.stderr = st.stderr ∧
        st1.trace = st.trace ++ loopTrace dp es ∧
        st1.pos = st.pos + es.length + 1 := by
  intro es
  induction es with
  | nil =>
      intro fuel st hy hf
      obtain ⟨f, rfl⟩ : ∃ f, fuel = f + 1 := ⟨fuel - 1, by simp at hf; omega⟩
      simp only [Yields] at hy
      cases hout : env.readdirOutcome dp st.pos with
      | entry ep => rw [hout] at hy; simp [ReaddirOutcome.ptr] at hy
      | endOfStream =>
          simp only [whileLoop, readdir, hout]
          refine ⟨_, rfl, ?_, rfl, rfl, rfl⟩
          simp [names, listing]
      | error e =>
          simp only [whileLoop, readdir, hout]
          refine ⟨_, rfl, ?_, rfl, rfl, rfl⟩
          simp [names, listing]
  | cons e es ih =>
      intro fuel st hy hf
      obtain ⟨f, rfl⟩ : ∃ f, fuel = f + 1 := ⟨fuel - 1, by simp at hf; omega⟩
      obtain ⟨hout, hrest⟩ := hy
      have hf1 : es.length < f := by simp at hf; omega
      obtain ⟨st1, hrun, hso, hse, htr, hpos⟩ :=
        ih f (puts e.d_name
          { st with pos := st.pos + 1, trace := st.trace ++ [Event.readdir dp (some e)] })
          hrest hf1
      refine ⟨st1, ?_, ?_, ?_, ?_, ?_⟩
      · simp only [whileLoop, readdir, hout]
        exact hrun
      · rw [hso]
        simp [puts, names, listing, String.append_assoc]
      · rw [hse]; rfl
      · rw [htr]
        simp [puts, loopTrace]
      · rw [hpos]
        simp [puts]
        omega

/-- A loop that ends has read a stream that hands out finitely many entries,
fewer than the fuel, and then NULL. -/
theorem yields_of_whileLoop (env : Env) (dp : DIR) :
    ∀ (fuel : Nat) (st st1 : State), whileLoop env dp fuel st = some st1 →
      ∃ es, Yields env dp st.pos es ∧ es.length < fuel := by
  intro fuel
  induction fuel with
  | zero => intro st st1 h; simp [whileLoop] at h
  | succ f ih =>
      intro st st1 h
      cases hout : env.readdirOutcome dp st.pos with
      | entry ep =>
          simp only [whileLoop, readdir, hout] at h
          obtain ⟨es, hy, hl⟩ := ih _ _ h
          exact ⟨ep :: es, ⟨hout, hy⟩, by simp; omega⟩
      | endOfStream => exact ⟨[], by simp [Yields, hout, ReaddirOutcome.ptr], by simp⟩
      | error e => exact ⟨[], by simp [Yields, hout, ReaddirOutcome.ptr], by simp⟩

/-- A stream that returns NULL at some call hands out a finite list of entries
before its first NULL. -/
theorem exists_yields_of_null (env : Env) (dp : DIR) :
    ∀ (n k : Nat), (env.readdirOutcome dp (k + n)).ptr = none →
      ∃ es, Yields env dp k es ∧ es.length ≤ n := by
  intro n
  induction n with
  | zero => intro k h; exact ⟨[], by simpa [Yields] using h, by simp⟩
  | succ n ih =>
      intro k h
      cases hout : env.readdirOutcome dp k with
      | entry ep =>
          have h1 : (env.readdirOutcome dp (k + 1 + n)).ptr = none := by
            have : k + 1 + n = k + (n + 1) := by omega
            rw [this]; exact h
          obtain ⟨es, hy, hl⟩ := ih (k + 1) h1
          exact ⟨ep :: es, ⟨hout, hy⟩, by simp; omega⟩
      | endOfStream => exact ⟨[], by simp [Yields, hout, ReaddirOutcome.ptr], by simp⟩
      | error e => exact ⟨[], by simp [Yields, hout, ReaddirOutcome.ptr], by simp⟩

/-- The call after the last entry handed out returns NULL. -/
theorem null_of_yields (env : Env) (dp : DIR) :
    ∀ (es : List dirent) (k : Nat), Yields env dp k es →
      (env.readdirOutcome dp (k + es.length)).ptr = none := by
  intro es
  induction es with
  | nil => intro k h; simpa [Yields] using h
  | cons e es ih =>
      intro k h
      have := ih (k + 1) h.2
      have he : k + (e :: es).length = k + 1 + es.length := by simp; omega
      rw [he]; exact this

/-- The entries a stream hands out before its first NULL are determined by the
stream. -/
theorem yields_unique (env : Env) (dp : DIR) :
    ∀ (es fs : List dirent) (k : Nat), Yields env dp k es → Yields env dp k fs → es = fs := by
  intro es
  induction es with
  | nil =>
      intro fs k h1 h2
      cases fs with
      | nil => rfl
      | cons f fs =>
          simp only [Yields] at h1
          rw [h2.1] at h1
          simp [ReaddirOutcome.ptr] at h1
  | cons e es ih =>
      intro fs k h1 h2
      cases fs with
      | nil =>
          simp only [Yields] at h2
          rw [h1.1] at h2
          simp [ReaddirOutcome.ptr] at h2
      | cons f fs =>
          have hef : e = f := by
            have := h1.1.symm.trans h2.1
            exact ReaddirOutcome.entry.inj this
          rw [hef, ih fs (k + 1) h1.2 h2.2]

/-! ## The two paths of `main` -/

/-- The failed-open path: `main` returns 0 after one `opendir` and one `perror`,
whatever the fuel. -/
theorem main_of_fail (env : Env) (fuel e : Nat)
    (hopen : env.opendirOutcome "." = OpendirOutcome.fail e) :
    main env fuel State.init = some (0,
      { errno := e, pos := 0, stdout := "",
        stderr := "Couldn't open the directory: " ++ env.strerror e ++ "\n",
        trace := [Event.opendir "." none, Event.perror "Couldn't open the directory"] }) := by
  simp only [main, opendir, hopen, perror, State.init]
  simp

/-- The successful-open path on a stream that hands out `es` and then NULL:
with more fuel than entries `main` returns 0, has written the listing and
nothing to standard error, and has made the calls `opendir`, the loop's calls,
`closedir`. -/
theorem main_of_ok (env : Env) (fuel : Nat) (dp : DIR) (es : List dirent)
    (hopen : env.opendirOutcome "." = OpendirOutcome.ok dp)
    (hy : Yields env dp 0 es) (hf : es.length < fuel) :
    ∃ st, main env fuel State.init = some (0, st) ∧
      st.stdout = listing (names es) ∧ st.stderr = "" ∧
      st.trace = Event.opendir "." (some dp) :: (loopTrace dp es ++ [Event.closedir dp]) ∧
      st.pos = es.length + 1 := by
  obtain ⟨st1, hrun, hso, hse, htr, hpos⟩ :=
    whileLoop_of_yields env dp es fuel
      { State.init with trace := State.init.trace ++ [Event.opendir "." (some dp)] } hy hf
  refine ⟨closedir dp st1, ?_, ?_, ?_, ?_, ?_⟩
  · simp only [main, opendir, hopen, hrun]
  · simp [closedir, hso, State.init]
  · simp [closedir, hse, State.init]
  · simp [closedir, htr, State.init]
  · simp [closedir, hpos, State.init]

/-- A run that completes came down one of the two paths. -/
theorem main_cases (env : Env) (fuel : Nat) (status : Int) (st : State)
    (hrun : main env fuel State.init = some (status, st)) :
    (∃ e, env.opendirOutcome "." = OpendirOutcome.fail e) ∨
    (∃ dp es, env.opendirOutcome "." = OpendirOutcome.ok dp ∧ Yields env dp 0 es ∧
      es.length < fuel) := by
  cases hopen : env.opendirOutcome "." with
  | fail e => exact Or.inl ⟨e, rfl⟩
  | ok dp =>
      right
      simp only [main, opendir, hopen] at hrun
      cases hloop : whileLoop env dp fuel
          { State.init with trace := State.init.trace ++ [Event.opendir "." (some dp)] } with
      | none => rw [hloop] at hrun; simp at hrun
      | some st2 =>
          obtain ⟨es, hy, hl⟩ := yields_of_whileLoop env dp fuel _ _ hloop
          exact ⟨dp, es, rfl, hy, hl⟩

/-- `main` completes within `fuel` exactly when the environment lets it:
`opendir` fails or a `readdir` call with a number below `fuel` returns NULL. -/
theorem main_isSome_iff (env : Env) (fuel : Nat) :
    (main env fuel State.init).isSome = true ↔ EndsWithin env fuel := by
  constructor
  · intro h
    obtain ⟨⟨status, st⟩, hrun⟩ := Option.isSome_iff_exists.mp h
    unfold EndsWithin
    rcases main_cases env fuel status st hrun with ⟨e, he⟩ | ⟨dp, es, hopen, hy, hl⟩
    · rw [he]; trivial
    · rw [hopen]
      exact ⟨es.length, hl, by simpa using null_of_yields env dp es 0 hy⟩
  · intro h
    unfold EndsWithin at h
    cases hopen : env.opendirOutcome "." with
    | fail e => rw [main_of_fail env fuel e hopen]; rfl
    | ok dp =>
        rw [hopen] at h
        obtain ⟨n, hn, hnull⟩ := h
        obtain ⟨es, hy, hl⟩ := exists_yields_of_null env dp n 0 (by simpa using hnull)
        obtain ⟨st, hrun, _⟩ := main_of_ok env fuel dp es hopen hy (by omega)
        rw [hrun]; rfl

/-- With no more fuel than entries the loop does not reach the NULL. -/
theorem whileLoop_none_of_yields (env : Env) (dp : DIR) (es : List dirent) (fuel : Nat)
    (st : State) (hy : Yields env dp st.pos es) (hf : fuel ≤ es.length) :
    whileLoop env dp fuel st = none := by
  cases h : whileLoop env dp fuel st with
  | none => rfl
  | some st1 =>
      obtain ⟨fs, hy1, hl⟩ := yields_of_whileLoop env dp fuel st st1 h
      have := yields_unique env dp es fs st.pos hy hy1
      subst this
      omega

/-! ## Reading the trace of the loop -/

theorem readdirCalls_loopTrace (dp : DIR) (es : List dirent) :
    readdirCalls (loopTrace dp es) = es.length + 1 := by
  induction es with
  | nil => rfl
  | cons e es ih =>
      simp only [readdirCalls] at ih
      simp [readdirCalls, loopTrace, Event.isReaddir, ih]

theorem putsCalls_loopTrace (dp : DIR) (es : List dirent) :
    putsCalls (loopTrace dp es) = es.length := by
  induction es with
  | nil => rfl
  | cons e es ih =>
      simp only [putsCalls] at ih
      simp [putsCalls, loopTrace, Event.isPuts, ih]

theorem closedirCalls_loopTrace (dp : DIR) (es : List dirent) :
    closedirCalls (loopTrace dp es) = 0 := by
  induction es with
  | nil => rfl
  | cons e es ih =>
      simp only [closedirCalls] at ih
      simp [closedirCalls, loopTrace, Event.isClosedir, ih]

theorem opendirCalls_loopTrace (dp : DIR) (es : List dirent) :
    opendirCalls (loopTrace dp es) = 0 := by
  induction es with
  | nil => rfl
  | cons e es ih =>
      simp only [opendirCalls] at ih
      simp [opendirCalls, loopTrace, Event.isOpendir, ih]

theorem successfulOpens_loopTrace (dp : DIR) (es : List dirent) :
    successfulOpens (loopTrace dp es) = 0 := by
  induction es with
  | nil => rfl
  | cons e es ih =>
      simp only [successfulOpens] at ih
      simp [successfulOpens, loopTrace, Event.isOpenOk, ih]

theorem perrorCalls_loopTrace (dp : DIR) (es : List dirent) :
    perrorCalls (loopTrace dp es) = 0 := by
  induction es with
  | nil => rfl
  | cons e es ih =>
      simp only [perrorCalls] at ih
      simp [perrorCalls, loopTrace, Event.isPerror, ih]

theorem printedNames_loopTrace (dp : DIR) (es : List dirent) (t : List Event) :
    printedNames (loopTrace dp es ++ t) = names es ++ printedNames t := by
  induction es with
  | nil => simp [loopTrace, printedNames, names]
  | cons e es ih =>
      simp only [names] at ih
      simp [loopTrace, printedNames, names, ih]

theorem readdirResults_loopTrace (dp : DIR) (es : List dirent) (t : List Event) :
    readdirResults (loopTrace dp es ++ t) = es.map some ++ none :: readdirResults t := by
  induction es with
  | nil => simp [loopTrace, readdirResults]
  | cons e es ih => simp [loopTrace, readdirResults, ih]

theorem dirOps_loopTrace (dp : DIR) (es : List dirent) (t : List Event) :
    dirOps (loopTrace dp es ++ t) =
      es.map (fun e => Event.readdir dp (some e)) ++ Event.readdir dp none :: dirOps t := by
  induction es with
  | nil => simp [loopTrace, dirOps, Event.isDirOp]
  | cons e es ih =>
      simp only [dirOps] at ih
      simp [loopTrace, dirOps, Event.isDirOp, ih]

/-- Reading entries keeps the life cycle in `Open`. -/
theorem phase_run_readdirs (dp : DIR) (rs : List (Option dirent)) (t : List Event) :
    Phase.run (Phase.Open dp) (rs.map (fun r => Event.readdir dp r) ++ t) =
      Phase.run (Phase.Open dp) t := by
  induction rs with
  | nil => rfl
  | cons r rs ih => simp [Phase.run, Phase.step, ih]

/-! ## Reading the lines of the listing -/

theorem linesAux_line (n : List Char) :
    ∀ (cur rest : List Char), '\n' ∉ n →
      linesAux cur (n ++ '\n' :: rest) = String.mk (cur ++ n) :: linesAux [] rest := by
  induction n with
  | nil => intro cur rest _; simp [linesAux]
  | cons c n ih =>
      intro cur rest h
      have hc : c ≠ '\n' := fun hc => h (by simp [hc])
      have hn : '\n' ∉ n := fun hn => h (by simp [hn])
      simp [linesAux, hc, ih (cur ++ [c]) rest hn]

/-- The lines of a listing of names without newlines are the names. -/
theorem linesOf_listing (ns : List String) (h : ∀ n ∈ ns, '\n' ∉ n.data) :
    linesOf (listing ns) = ns := by
  induction ns with
  | nil => rfl
  | cons n ns ih =>
      have hn : '\n' ∉ n.data := h n (by simp)
      have hns : ∀ m ∈ ns, '\n' ∉ m.data := fun m hm => h m (by simp [hm])
      have hdata : (listing (n :: ns)).data = n.data ++ '\n' :: (listing ns).data := by
        simp [listing, String.data_append]
      have ih1 := ih hns
      simp only [linesOf] at ih1 ⊢
      rw [hdata, linesAux_line n.data [] _ hn, ih1]
      simp

/-- A text that ends in a newline is not empty. -/
theorem append_newline_ne_empty (s : String) : s ++ "\n" ≠ "" := by
  intro h
  have hl := congrArg String.length h
  rw [String.length_append] at hl
  have h1 : ("\n" : String).length = 1 := rfl
  have h0 : ("" : String).length = 0 := rfl
  omega

/-! ## The properties of a run -/

/-- C1: when the open succeeds and the stream hands out the entries `es` and
then NULL, `main` ends and standard output holds exactly the names of `es`,
each followed by a newline, in the order of the stream and with nothing added
or left out; the names passed to `puts` are the names handed out, so the two
sets of names are equal; and when no name holds a newline the lines of the
output are the names. -/
theorem main_prints_each_yielded_name (env : Env) (fuel : Nat) (dp : DIR) (es : List dirent)
    (hopen : env.opendirOutcome "." = OpendirOutcome.ok dp)
    (hy : Yields env dp 0 es) (hf : es.length < fuel) :
    ∃ status st, main env fuel State.init = some (status, st) ∧
      st.stdout = listing (names es) ∧
      printedNames st.trace = names es ∧
      (∀ n, n ∈ printedNames st.trace ↔ n ∈ names es) ∧
      ((∀ n ∈ names es, '\n' ∉ n.data) → linesOf st.stdout = names es) := by
  obtain ⟨st, hrun, hso, _, htr, _⟩ := main_of_ok env fuel dp es hopen hy hf
  have hp : printedNames st.trace = names es := by
    rw [htr]
    show printedNames (loopTrace dp es ++ [Event.closedir dp]) = names es
    rw [printedNames_loopTrace]
    simp [printedNames]
  refine ⟨0, st, hrun, hso, hp, ?_, ?_⟩
  · intro n; rw [hp]
  · intro hnl; rw [hso]; exact linesOf_listing _ hnl

/-- The directory with `a.txt` and `b.txt` prints the two names, one per line. -/
theorem main_prints_each_yielded_name_witness :
    envAB.opendirOutcome "." = OpendirOutcome.ok 7 ∧
    Yields envAB 7 0 [⟨11, "a.txt"⟩, ⟨12, "b.txt"⟩] ∧
    ∃ status st, main envAB 3 State.init = some (status, st) ∧
      st.stdout = "a.txt\nb.txt\n" ∧
      printedNames st.trace = ["a.txt", "b.txt"] ∧
      (∀ n, n ∈ printedNames st.trace ↔ n ∈ ["a.txt", "b.txt"]) ∧
      linesOf st.stdout = ["a.txt", "b.txt"] :=
  ⟨rfl, ⟨rfl, rfl, rfl⟩,
    match main_prints_each_yielded_name envAB 3 7 [⟨11, "a.txt"⟩, ⟨12, "b.txt"⟩] rfl
      ⟨rfl, rfl, rfl⟩ (by decide) with
    | ⟨status, st, hrun, hso, hp, hmem, hlines⟩ =>
        ⟨status, st, hrun, hso, hp, hmem, hlines (by decide)⟩⟩

/-- C2, as stated, fails: when `opendir` fails `main` still returns 0, so no
run on a directory that cannot be opened exits with a non-zero status. -/
theorem open_failure_exit_status_counterexample :
    envNoDir.opendirOutcome "." = OpendirOutcome.fail 2 ∧
    ¬ ∃ status st, main envNoDir 1 State.init = some (status, st) ∧
        st.stdout = "" ∧ st.stderr ≠ "" ∧ status ≠ 0 := by
  refine ⟨rfl, ?_⟩
  rintro ⟨status, st, hrun, _, _, hne⟩
  rw [main_of_fail envNoDir 1 2 rfl] at hrun
  have hst : (0 : Int) = status := congrArg Prod.fst (Option.some.inj hrun)
  exact hne hst.symm

/-- C2, amended: when `opendir` fails `main` ends, whatever the fuel; it has
written nothing to standard output, has written the diagnostic (the message,
a colon and a blank, the system text of the `errno` that `opendir` set, a
newline) to standard error, and returns the status 0. -/
theorem open_failure_reports_and_returns_zero (env : Env) (fuel e : Nat)
    (hopen : env.opendirOutcome "." = OpendirOutcome.fail e) :
    ∃ st, main env fuel State.init = some (0, st) ∧
      st.stdout = "" ∧
      st.stderr = "Couldn't open the directory: " ++ env.strerror e ++ "\n" ∧
      st.stderr ≠ "" :=
  ⟨_, main_of_fail env fuel e hopen, rfl, rfl, append_newline_ne_empty _⟩

/-- The directory that cannot be opened: diagnostic on standard error,
status 0. -/
theorem open_failure_reports_and_returns_zero_witness :
    envNoDir.opendirOutcome "." = OpendirOutcome.fail 2 ∧
    ∃ st, main envNoDir 0 State.init = some (0, st) ∧
      st.stdout = "" ∧
      st.stderr = "Couldn't open the directory: No such file or directory\n" ∧
      st.stderr ≠ "" :=
  ⟨rfl, open_failure_reports_and_returns_zero envNoDir 0 2 rfl⟩

/-- C3: when the open succeeds and some `readdir` call with a number below
`fuel` returns NULL, `main` ends with the status 0; and when already the
first `readdir` returns NULL (empty directory), nothing was written to
standard output. -/
theorem open_success_returns_zero (env : Env) (fuel : Nat) (dp : DIR)
    (hopen : env.opendirOutcome "." = OpendirOutcome.ok dp)
    (hend : ∃ n, n < fuel ∧ (env.readdirOutcome dp n).ptr = none) :
    ∃ st, main env fuel State.init = some (0, st) ∧
      ((env.readdirOutcome dp 0).ptr = none → st.stdout = "") := by
  obtain ⟨n, hn, hnull⟩ := hend
  obtain ⟨es, hy, hl⟩ := exists_yields_of_null env dp n 0 (by simpa using hnull)
  obtain ⟨st, hrun, hso, _⟩ := main_of_ok env fuel dp es hopen hy (by omega)
  refine ⟨st, hrun, ?_⟩
  intro h0
  have hes : es = [] := yields_unique env dp es [] 0 hy h0
  rw [hso, hes]
  rfl

/-- The empty directory: status 0 and empty output. -/
theorem open_success_returns_zero_witness :
    envEmpty.opendirOutcome "." = OpendirOutcome.ok 7 ∧
    (∃ n, n < 1 ∧ (envEmpty.readdirOutcome 7 n).ptr = none) ∧
    ∃ st, main envEmpty 1 State.init = some (0, st) ∧
      ((envEmpty.readdirOutcome 7 0).ptr = none → st.stdout = "") :=
  ⟨rfl, ⟨0, by decide, rfl⟩,
    open_success_returns_zero envEmpty 1 7 rfl ⟨0, by decide, rfl⟩⟩

/-- C4: `main` completes exactly when the environment lets it, and in every
completed run the handle is released once per successful open: the number of
`closedir` calls equals the number of `opendir` calls that returned a handle;
when `opendir` returned `dp` both numbers are 1 and the one `closedir` is on
`dp`, right after the `readdir` that returned NULL (be it the end of the
stream or an error), as the last call of the run; when `opendir` failed both
numbers are 0. -/
theorem handle_released_once_per_open (env : Env) (fuel : Nat) :
    ((main env fuel State.init).isSome = true ↔ EndsWithin env fuel) ∧
    ∀ status st, main env fuel State.init = some (status, st) →
      closedirCalls st.trace = successfulOpens st.trace ∧
      (∀ dp, env.opendirOutcome "." = OpendirOutcome.ok dp →
        successfulOpens st.trace = 1 ∧ closedirCalls st.trace = 1 ∧
        ∃ t, st.trace = t ++ [Event.readdir dp none, Event.closedir dp] ∧
          closedirCalls t = 0) ∧
      (∀ e, env.opendirOutcome "." = OpendirOutcome.fail e →
        successfulOpens st.trace = 0 ∧ closedirCalls st.trace = 0) := by
  refine ⟨main_isSome_iff env fuel, ?_⟩
  intro status st hrun
  rcases main_cases env fuel status st hrun with ⟨e, he⟩ | ⟨dp, es, hopen, hy, hl⟩
  · rw [main_of_fail env fuel e he] at hrun
    have hst := congrArg Prod.snd (Option.some.inj hrun)
    simp only at hst
    subst hst
    refine ⟨rfl, ?_, fun _ _ => ⟨rfl, rfl⟩⟩
    intro dp hdp
    rw [he] at hdp
    cases hdp
  · obtain ⟨st1, hrun1, _, _, htr, _⟩ := main_of_ok env fuel dp es hopen hy hl
    rw [hrun1] at hrun
    have hst := congrArg Prod.snd (Option.some.inj hrun)
    simp only at hst
    subst hst
    have hc : closedirCalls st1.trace = 1 := by
      rw [htr]
      have := closedirCalls_loopTrace dp es
      simp only [closedirCalls] at this ⊢
      simp [List.countP_cons, List.countP_append, Event.isClosedir, this]
    have ho : successfulOpens st1.trace = 1 := by
      rw [htr]
      have := successfulOpens_loopTrace dp es
      simp only [successfulOpens] at this ⊢
      simp [List.countP_cons, List.countP_append, Event.isOpenOk, this]
    refine ⟨by rw [hc, ho], ?_, ?_⟩
    · intro dp1 hdp1
      rw [hopen] at hdp1
      cases hdp1
      refine ⟨ho, hc, ?_⟩
      refine ⟨Event.opendir "." (some dp) ::
        (es.flatMap (fun e => [Event.readdir dp (some e), Event.puts e.d_name])), ?_, ?_⟩
      · rw [htr]
        have hlt : ∀ fs : List dirent, loopTrace dp fs =
            fs.flatMap (fun e => [Event.readdir dp (some e), Event.puts e.d_name]) ++
              [Event.readdir dp none] := by
          intro fs
          induction fs with
          | nil => rfl
          | cons f fs ih => simp [loopTrace, ih]
        rw [hlt]
        simp
      · have hz : ∀ fs : List dirent, closedirCalls
            (fs.flatMap (fun e => [Event.readdir dp (some e), Event.puts e.d_name])) = 0 := by
          intro fs
          induction fs with
          | nil => rfl
          | cons f fs ih =>
              simp only [closedirCalls] at ih ⊢
              simp [List.countP_cons, List.countP_append, Event.isClosedir, ih]
        have := hz es
        simp only [closedirCalls] at this ⊢
        simp [List.countP_cons, Event.isClosedir, this]
    · intro e he
      rw [hopen] at he
      cases he

/-- The directory whose stream stops on a read error: one open, one close,
the close right after the `readdir` that returned NULL; the directory that
cannot be opened: no open, no close. -/
theorem handle_released_once_per_open_witness :
    (main envAB2 3 State.init).isSome = true ∧
    (∃ st, main envAB2 3 State.init = some (0, st) ∧
      closedirCalls st.trace = successfulOpens st.trace ∧
      (successfulOpens st.trace = 1 ∧ closedirCalls st.trace = 1 ∧
        ∃ t, st.trace = t ++ [Event.readdir 9 none, Event.closedir 9] ∧
          closedirCalls t = 0)) ∧
    (∃ st, main envNoDir 3 State.init = some (0, st) ∧
      successfulOpens st.trace = 0 ∧ closedirCalls st.trace = 0) :=
  ⟨(handle_released_once_per_open envAB2 3).1.mpr ⟨2, by decide, rfl⟩,
    ⟨_, rfl,
      ((handle_released_once_per_open envAB2 3).2 0 _ rfl).1,
      ((handle_released_once_per_open envAB2 3).2 0 _ rfl).2.1 9 rfl⟩,
    ⟨_, rfl, ((handle_released_once_per_open envNoDir 3).2 0 _ rfl).2.2 2 rfl⟩⟩

/-- C5: `main` completes exactly when the environment lets it, and in every
completed run `opendir` is called exactly once and the directory operations
are either `opendir` returning a handle, then one `readdir` on that handle per
entry handed out and the `readdir` that returns NULL, then `closedir` on that
handle and nothing after it, or the single failed `opendir`; the life cycle
`Unopened → Open → (iterating)* → Closed` or `Unopened → FailedOpen` accepts
them and ends in `Closed`, respectively `FailedOpen`. -/
theorem directory_operations_follow_life_cycle (env : Env) (fuel : Nat) :
    ((main env fuel State.init).isSome = true ↔ EndsWithin env fuel) ∧
    ∀ status st, main env fuel State.init = some (status, st) →
      opendirCalls st.trace = 1 ∧
      ((∃ dp es, env.opendirOutcome "." = OpendirOutcome.ok dp ∧ Yields env dp 0 es ∧
          dirOps st.trace = Event.opendir "." (some dp) ::
            (es.map (fun e => Event.readdir dp (some e)) ++
              [Event.readdir dp none, Event.closedir dp]) ∧
          Phase.run Phase.Unopened (dirOps st.trace) = some Phase.Closed) ∨
       (∃ e, env.opendirOutcome "." = OpendirOutcome.fail e ∧
          dirOps st.trace = [Event.opendir "." none] ∧
          Phase.run Phase.Unopened (dirOps st.trace) = some Phase.FailedOpen)) := by
  refine ⟨main_isSome_iff env fuel, ?_⟩
  intro status st hrun
  rcases main_cases env fuel status st hrun with ⟨e, he⟩ | ⟨dp, es, hopen, hy, hl⟩
  · rw [main_of_fail env fuel e he] at hrun
    have hst := congrArg Prod.snd (Option.some.inj hrun)
    simp only at hst
    subst hst
    exact ⟨rfl, Or.inr ⟨e, he, rfl, rfl⟩⟩
  · obtain ⟨st1, hrun1, _, _, htr, _⟩ := main_of_ok env fuel dp es hopen hy hl
    rw [hrun1] at hrun
    have hst := congrArg Prod.snd (Option.some.inj hrun)
    simp only at hst
    subst hst
    have hops : dirOps st1.trace = Event.opendir "." (some dp) ::
        (es.map (fun e => Event.readdir dp (some e)) ++
          [Event.readdir dp none, Event.closedir dp]) := by
      rw [htr]
      show dirOps ([Event.opendir "." (some dp)] ++ (loopTrace dp es ++ [Event.closedir dp])) = _
      have h1 : dirOps ([Event.opendir "." (some dp)] ++
          (loopTrace dp es ++ [Event.closedir dp])) =
          Event.opendir "." (some dp) :: dirOps (loopTrace dp es ++ [Event.closedir dp]) := by
        simp [dirOps, Event.isDirOp]
      rw [h1, dirOps_loopTrace]
      simp [dirOps, Event.isDirOp]
    refine ⟨?_, Or.inl ⟨dp, es, hopen, hy, hops, ?_⟩⟩
    · rw [htr]
      have := opendirCalls_loopTrace dp es
      simp only [opendirCalls] at this ⊢
      simp [List.countP_cons, List.countP_append, Event.isOpendir, this]
    · rw [hops]
      have hmap : es.map (fun e => Event.readdir dp (some e)) =
          (es.map some).map (fun r => Event.readdir dp r) := by simp
      rw [hmap]
      show Phase.run (Phase.Open dp) _ = _
      rw [phase_run_readdirs]
      simp [Phase.run, Phase.step]

/-- The directory with `a.txt` and `b.txt`: one `opendir`, three `readdir`, one
`closedir`, accepted by the life cycle and ending in `Closed`; the directory
that cannot be opened: the one failed `opendir`, ending in `FailedOpen`. -/
theorem directory_operations_follow_life_cycle_witness :
    (main envAB 3 State.init).isSome = true ∧
    (∃ st, main envAB 3 State.init = some (0, st) ∧
      opendirCalls st.trace = 1 ∧
      dirOps st.trace = [Event.opendir "." (some 7), Event.readdir 7 (some ⟨11, "a.txt"⟩),
        Event.readdir 7 (some ⟨12, "b.txt"⟩), Event.readdir 7 none, Event.closedir 7] ∧
      Phase.run Phase.Unopened (dirOps st.trace) = some Phase.Closed) ∧
    (∃ st, main envNoDir 3 State.init = some (0, st) ∧
      opendirCalls st.trace = 1 ∧
      dirOps st.trace = [Event.opendir "." none] ∧
      Phase.run Phase.Unopened (dirOps st.trace) = some Phase.FailedOpen) :=
  ⟨(directory_operations_follow_life_cycle envAB 3).1.mpr ⟨2, by decide, rfl⟩,
    ⟨_, rfl, ((directory_operations_follow_life_cycle envAB 3).2 0 _ rfl).1, rfl, rfl⟩,
    ⟨_, rfl, ((directory_operations_follow_life_cycle envNoDir 3).2 0 _ rfl).1, rfl, rfl⟩⟩

/-- C6: two runs in which the open succeeds and the streams hand out entries
with the same names in the same order (whatever the handles, the other
members of the entries, the reason of the final NULL, the system texts and
the fuel) both end, with identical standard outputs and identical printed
names. -/
theorem listing_is_deterministic (env1 env2 : Env) (fuel1 fuel2 : Nat) (dp1 dp2 : DIR)
    (es1 es2 : List dirent)
    (hopen1 : env1.opendirOutcome "." = OpendirOutcome.ok dp1)
    (hopen2 : env2.opendirOutcome "." = OpendirOutcome.ok dp2)
    (hy1 : Yields env1 dp1 0 es1) (hy2 : Yields env2 dp2 0 es2)
    (hf1 : es1.length < fuel1) (hf2 : es2.length < fuel2)
    (hsame : names es1 = names es2) :
    ∃ st1 st2, main env1 fuel1 State.init = some (0, st1) ∧
      main env2 fuel2 State.init = some (0, st2) ∧
      st1.stdout = st2.stdout ∧
      printedNames st1.trace = printedNames st2.trace := by
  obtain ⟨st1, hrun1, hso1, _, htr1, _⟩ := main_of_ok env1 fuel1 dp1 es1 hopen1 hy1 hf1
  obtain ⟨st2, hrun2, hso2, _, htr2, _⟩ := main_of_ok env2 fuel2 dp2 es2 hopen2 hy2 hf2
  refine ⟨st1, st2, hrun1, hrun2, by rw [hso1, hso2, hsame], ?_⟩
  rw [htr1, htr2]
  show printedNames (loopTrace dp1 es1 ++ [Event.closedir dp1]) =
    printedNames (loopTrace dp2 es2 ++ [Event.closedir dp2])
  rw [printedNames_loopTrace, printedNames_loopTrace, hsame]
  rfl

/-- Two directories with the same names but other handles, inode numbers and
endings of the stream give the same output. -/
theorem listing_is_deterministic_witness :
    names [⟨11, "a.txt"⟩, ⟨12, "b.txt"⟩] = names [⟨21, "a.txt"⟩, ⟨22, "b.txt"⟩] ∧
    ∃ st1 st2, main envAB 3 State.init = some (0, st1) ∧
      main envAB2 5 State.init = some (0, st2) ∧
      st1.stdout = st2.stdout ∧
      printedNames st1.trace = printedNames st2.trace :=
  ⟨rfl, listing_is_deterministic envAB envAB2 3 5 7 9 [⟨11, "a.txt"⟩, ⟨12, "b.txt"⟩]
    [⟨21, "a.txt"⟩, ⟨22, "b.txt"⟩] rfl rfl ⟨rfl, rfl, rfl⟩ ⟨rfl, rfl, rfl⟩
    (by decide) (by decide) rfl⟩

/-- C7: when `opendir` fails `main` ends, whatever the fuel, and its calls are
exactly the one failed `opendir` followed by one `perror` with the message
`Couldn't open the directory`: no `readdir`, no `closedir`, no `puts`, no
second `opendir`; standard error holds the message, a colon and a blank, the
system text of the `errno` that `opendir` set, and a newline. -/
theorem open_failure_reported_once (env : Env) (fuel e : Nat)
    (hopen : env.opendirOutcome "." = OpendirOutcome.fail e) :
    ∃ status st, main env fuel State.init = some (status, st) ∧
      st.trace = [Event.opendir "." none, Event.perror "Couldn't open the directory"] ∧
      perrorCalls st.trace = 1 ∧ opendirCalls st.trace = 1 ∧
      readdirCalls st.trace = 0 ∧ closedirCalls st.trace = 0 ∧ putsCalls st.trace = 0 ∧
      st.stderr = "Couldn't open the directory" ++ ": " ++ env.strerror e ++ "\n" :=
  ⟨0, _, main_of_fail env fuel e hopen, rfl, rfl, rfl, rfl, rfl, rfl, rfl⟩

/-- The directory that cannot be opened: one `opendir`, one `perror`. -/
theorem open_failure_reported_once_witness :
    envNoDir.opendirOutcome "." = OpendirOutcome.fail 2 ∧
    ∃ status st, main envNoDir 4 State.init = some (status, st) ∧
      st.trace = [Event.opendir "." none, Event.perror "Couldn't open the directory"] ∧
      perrorCalls st.trace = 1 ∧ opendirCalls st.trace = 1 ∧
      readdirCalls st.trace = 0 ∧ closedirCalls st.trace = 0 ∧ putsCalls st.trace = 0 ∧
      st.stderr = "Couldn't open the directory" ++ ": " ++ envNoDir.strerror 2 ++ "\n" :=
  ⟨rfl, open_failure_reported_once envNoDir 4 2 rfl⟩

/-- C8: when the open succeeds and the stream hands out the `n` entries `es`
and then NULL, `main` ends as soon as the fuel allows `n + 1` evaluations of
the loop condition, and not with less; it has called `readdir` exactly `n + 1`
times and `puts` exactly `n` times; the `readdir` calls returned the entries
of `es`, each once and in order, and then the one NULL, after which no
`readdir` follows; the `puts` calls printed the names of `es`, each once and
in order. -/
theorem loop_is_single_pass (env : Env) (fuel : Nat) (dp : DIR) (es : List dirent)
    (hopen : env.opendirOutcome "." = OpendirOutcome.ok dp)
    (hy : Yields env dp 0 es) (hf : es.length < fuel) :
    (∃ status st, main env fuel State.init = some (status, st) ∧
      readdirCalls st.trace = es.length + 1 ∧
      putsCalls st.trace = es.length ∧
      st.pos = es.length + 1 ∧
      readdirResults st.trace = es.map some ++ [none] ∧
      printedNames st.trace = names es) ∧
    main env es.length State.init = none := by
  obtain ⟨st, hrun, _, _, htr, hpos⟩ := main_of_ok env fuel dp es hopen hy hf
  refine ⟨⟨0, st, hrun, ?_, ?_, hpos, ?_, ?_⟩, ?_⟩
  · rw [htr]
    have := readdirCalls_loopTrace dp es
    simp only [readdirCalls] at this ⊢
    simp [List.countP_cons, List.countP_append, Event.isReaddir, this]
  · rw [htr]
    have := putsCalls_loopTrace dp es
    simp only [putsCalls] at this ⊢
    simp [List.countP_cons, List.countP_append, Event.isPuts, this]
  · rw [htr]
    show readdirResults (loopTrace dp es ++ [Event.closedir dp]) = _
    rw [readdirResults_loopTrace]
    simp [readdirResults]
  · rw [htr]
    show printedNames (loopTrace dp es ++ [Event.closedir dp]) = _
    rw [printedNames_loopTrace]
    simp [printedNames]
  · simp only [main, opendir, hopen]
    rw [whileLoop_none_of_yields env dp es es.length _ hy (le_refl _)]

/-- The directory with `a.txt` and `b.txt`: three `readdir` calls, two `puts`
calls, and two units of fuel are not enough. -/
theorem loop_is_single_pass_witness :
    (∃ status st, main envAB 3 State.init = some (status, st) ∧
      readdirCalls st.trace = 3 ∧
      putsCalls st.trace = 2 ∧
      st.pos = 3 ∧
      readdirResults st.trace = [some ⟨11, "a.txt"⟩, some ⟨12, "b.txt"⟩, none] ∧
      printedNames st.trace = ["a.txt", "b.txt"]) ∧
    main envAB 2 State.init = none :=
  loop_is_single_pass envAB 3 7 [⟨11, "a.txt"⟩, ⟨12, "b.txt"⟩] rfl ⟨rfl, rfl, rfl⟩ (by decide)

/-- C9: `main` completes exactly when the environment lets it, and in every
completed run the two output channels are used on disjoint paths: when the
open succeeded nothing was written to standard error and `perror` was not
called, also when the final NULL of `readdir` was an error; when the open
failed nothing was written to standard output and `puts` was not called; so
in no run both channels were written. -/
theorem output_channels_are_disjoint (env : Env) (fuel : Nat) :
    ((main env fuel State.init).isSome = true ↔ EndsWithin env fuel) ∧
    ∀ status st, main env fuel State.init = some (status, st) →
      (∀ dp, env.opendirOutcome "." = OpendirOutcome.ok dp →
        st.stderr = "" ∧ perrorCalls st.trace = 0) ∧
      (∀ e, env.opendirOutcome "." = OpendirOutcome.fail e →
        st.stdout = "" ∧ putsCalls st.trace = 0) ∧
      (st.stdout = "" ∨ st.stderr = "") := by
  refine ⟨main_isSome_iff env fuel, ?_⟩
  intro status st hrun
  rcases main_cases env fuel status st hrun with ⟨e, he⟩ | ⟨dp, es, hopen, hy, hl⟩
  · rw [main_of_fail env fuel e he] at hrun
    have hst := congrArg Prod.snd (Option.some.inj hrun)
    simp only at hst
    subst hst
    refine ⟨?_, fun _ _ => ⟨rfl, rfl⟩, Or.inl rfl⟩
    intro dp hdp
    rw [he] at hdp
    cases hdp
  · obtain ⟨st1, hrun1, _, hse, htr, _⟩ := main_of_ok env fuel dp es hopen hy hl
    rw [hrun1] at hrun
    have hst := congrArg Prod.snd (Option.some.inj hrun)
    simp only at hst
    subst hst
    refine ⟨fun _ _ => ⟨hse, ?_⟩, ?_, Or.inr hse⟩
    · rw [htr]
      have := perrorCalls_loopTrace dp es
      simp only [perrorCalls] at this ⊢
      simp [List.countP_cons, List.countP_append, Event.isPerror, this]
    · intro e he
      rw [hopen] at he
      cases he

/-- The directory whose stream stops on a read error writes nothing to
standard error; the directory that cannot be opened writes nothing to
standard output. -/
theorem output_channels_are_disjoint_witness :
    (main envAB2 3 State.init).isSome = true ∧
    (∃ st, main envAB2 3 State.init = some (0, st) ∧
      (st.stderr = "" ∧ perrorCalls st.trace = 0) ∧ (st.stdout = "" ∨ st.stderr = "")) ∧
    (∃ st, main envNoDir 3 State.init = some (0, st) ∧
      (st.stdout = "" ∧ putsCalls st.trace = 0) ∧ (st.stdout = "" ∨ st.stderr = "")) :=
  ⟨(output_channels_are_disjoint envAB2 3).1.mpr ⟨2, by decide, rfl⟩,
    ⟨_, rfl, ((output_channels_are_disjoint envAB2 3).2 0 _ rfl).1 9 rfl,
      ((output_channels_are_disjoint envAB2 3).2 0 _ rfl).2.2⟩,
    ⟨_, rfl, ((output_channels_are_disjoint envNoDir 3).2 0 _ rfl).2.1 2 rfl,
      ((output_channels_are_disjoint envNoDir 3).2 0 _ rfl).2.2⟩⟩

end Dir
